import Mathlib

/-!
Shallow embedding of the avatar core of this repository: retargeting of
Mixamo FBX clips onto a VRM rig (`loadMixamoAnimation`), the
expression/viseme mixer and one-shot motion director of `VRMRenderer`,
and the VTube Studio bridge (`VTubeStudioBridge`).  Floating-point
values are modelled by rationals; the quaternion operations follow the
component formulas of the three.js `Quaternion` class that the source
calls into.
-/

namespace AvatarCore

/-- Quaternions with rational components, with the component layout used by
three.js (`x, y, z, w`). -/
structure Quat where
  x : ℚ
  y : ℚ
  z : ℚ
  w : ℚ
  deriving DecidableEq, Repr

/-- Hamilton product, component formulas of `THREE.Quaternion.multiplyQuaternions`.
`a.mul b` is three.js `a.clone().multiply(b)`; three.js `a.premultiply(b)` is
`b.mul a`. -/
def Quat.mul (a b : Quat) : Quat :=
  ⟨a.x * b.w + a.w * b.x + a.y * b.z - a.z * b.y,
   a.y * b.w + a.w * b.y + a.z * b.x - a.x * b.z,
   a.z * b.w + a.w * b.z + a.x * b.y - a.y * b.x,
   a.w * b.w - a.x * b.x - a.y * b.y - a.z * b.z⟩

/-- The conjugate; this is exactly what `THREE.Quaternion.invert` computes
(three.js documents that the quaternion is assumed to have unit length). -/
def Quat.conj (a : Quat) : Quat := ⟨-a.x, -a.y, -a.z, a.w⟩

/-- Squared norm of a quaternion. -/
def Quat.normSq (a : Quat) : ℚ := a.x ^ 2 + a.y ^ 2 + a.z ^ 2 + a.w ^ 2

/-- The mathematical quaternion inverse: conjugate divided by squared norm.
For unit quaternions it agrees with `Quat.conj`. -/
def Quat.inv (a : Quat) : Quat :=
  ⟨-a.x / a.normSq, -a.y / a.normSq, -a.z / a.normSq, a.w / a.normSq⟩

/-- `new THREE.Quaternion()`, the identity rotation. -/
def Quat.identity : Quat := ⟨0, 0, 0, 1⟩

/-- The runtime class of a keyframe track, standing in for the
`instanceof THREE.QuaternionKeyframeTrack` / `THREE.VectorKeyframeTrack`
checks of the source. -/
inductive TrackKind where
  | quaternion
  | vector
  | number
  deriving DecidableEq, Repr

/-- A keyframe track: `name` is of the form `bone.property`, `values` is the
flat value array (4 floats per quaternion keyframe, 3 per vector keyframe). -/
structure KTrack where
  kind : TrackKind
  name : String
  times : List ℚ
  values : List ℚ
  deriving DecidableEq, Repr

/-- A `THREE.AnimationClip`: a name, a duration, and keyframe tracks. -/
structure Clip where
  name : String
  duration : ℚ
  tracks : List KTrack
  deriving DecidableEq, Repr

/-- A node of the source (Mixamo FBX) hierarchy, carrying the rest-pose data
the retargeter reads from it: local position `y`, the node's rest-pose world
rotation (`getWorldQuaternion` on the just-loaded asset), and its parent's
rest-pose world rotation (`none` when the node has no parent, in which case
the source leaves the shared temporary quaternion unchanged). -/
structure SourceNode where
  name : String
  positionY : ℚ
  worldQuat : Quat
  parentWorldQuat : Option Quat
  deriving DecidableEq, Repr

/-- The loaded FBX asset: its animation list and its named object hierarchy. -/
structure Asset where
  animations : List Clip
  nodes : List SourceNode
  deriving DecidableEq, Repr

/-- `asset.getObjectByName`. -/
def Asset.getObjectByName (asset : Asset) (n : String) : Option SourceNode :=
  asset.nodes.find? (fun node => node.name = n)

/-- A normalized VRM humanoid bone node: its scene-graph `name` and the `y`
component of its world position (only read for the hips). -/
structure VRMNode where
  name : String
  worldY : ℚ
  deriving DecidableEq, Repr

/-- The target VRM model: the resolvable normalized humanoid bone nodes, and
`humanoid.normalizedRestPose?.hips?.position?.[1]` when present. -/
structure VRMModel where
  humanBones : List (String × VRMNode)
  normalizedRestPoseHipsY : Option ℚ
  deriving DecidableEq, Repr

/-- `vrm.humanoid.getNormalizedBoneNode`. -/
def VRMModel.getNormalizedBoneNode (vrm : VRMModel) (b : String) : Option VRMNode :=
  (vrm.humanBones.find? (fun p => p.1 = b)).map Prod.snd

/-- The `mixamoVRMRigMap` table of `loadMixamoAnimation.ts`, verbatim. -/
def mixamoVRMRigMap : List (String × String) :=
  [("mixamorigHips", "hips"),
   ("mixamorigSpine", "spine"),
   ("mixamorigSpine1", "chest"),
   ("mixamorigSpine2", "upperChest"),
   ("mixamorigNeck", "neck"),
   ("mixamorigHead", "head"),
   ("mixamorigLeftShoulder", "leftShoulder"),
   ("mixamorigLeftArm", "leftUpperArm"),
   ("mixamorigLeftForeArm", "leftLowerArm"),
   ("mixamorigLeftHand", "leftHand"),
   ("mixamorigLeftHandThumb1", "leftThumbMetacarpal"),
   ("mixamorigLeftHandThumb2", "leftThumbProximal"),
   ("mixamorigLeftHandThumb3", "leftThumbDistal"),
   ("mixamorigLeftHandIndex1", "leftIndexProximal"),
   ("mixamorigLeftHandIndex2", "leftIndexIntermediate"),
   ("mixamorigLeftHandIndex3", "leftIndexDistal"),
   ("mixamorigLeftHandMiddle1", "leftMiddleProximal"),
   ("mixamorigLeftHandMiddle2", "leftMiddleIntermediate"),
   ("mixamorigLeftHandMiddle3", "leftMiddleDistal"),
   ("mixamorigLeftHandRing1", "leftRingProximal"),
   ("mixamorigLeftHandRing2", "leftRingIntermediate"),
   ("mixamorigLeftHandRing3", "leftRingDistal"),
   ("mixamorigLeftHandPinky1", "leftLittleProximal"),
   ("mixamorigLeftHandPinky2", "leftLittleIntermediate"),
   ("mixamorigLeftHandPinky3", "leftLittleDistal"),
   ("mixamorigRightShoulder", "rightShoulder"),
   ("mixamorigRightArm", "rightUpperArm"),
   ("mixamorigRightForeArm", "rightLowerArm"),
   ("mixamorigRightHand", "rightHand"),
   ("mixamorigRightHandThumb1", "rightThumbMetacarpal"),
   ("mixamorigRightHandThumb2", "rightThumbProximal"),
   ("mixamorigRightHandThumb3", "rightThumbDistal"),
   ("mixamorigRightHandIndex1", "rightIndexProximal"),
   ("mixamorigRightHandIndex2", "rightIndexIntermediate"),
   ("mixamorigRightHandIndex3", "rightIndexDistal"),
   ("mixamorigRightHandMiddle1", "rightMiddleProximal"),
   ("mixamorigRightHandMiddle2", "rightMiddleIntermediate"),
   ("mixamorigRightHandMiddle3", "rightMiddleDistal"),
   ("mixamorigRightHandRing1", "rightRingProximal"),
   ("mixamorigRightHandRing2", "rightRingIntermediate"),
   ("mixamorigRightHandRing3", "rightRingDistal"),
   ("mixamorigRightHandPinky1", "rightLittleProximal"),
   ("mixamorigRightHandPinky2", "rightLittleIntermediate"),
   ("mixamorigRightHandPinky3", "rightLittleDistal"),
   ("mixamorigLeftUpLeg", "leftUpperLeg"),
   ("mixamorigLeftLeg", "leftLowerLeg"),
   ("mixamorigLeftFoot", "leftFoot"),
   ("mixamorigLeftToeBase", "leftToes"),
   ("mixamorigRightUpLeg", "rightUpperLeg"),
   ("mixamorigRightLeg", "rightLowerLeg"),
   ("mixamorigRightFoot", "rightFoot"),
   ("mixamorigRightToeBase", "rightToes")]

/-- The rotation-branch keyframe transform of `loadMixamoAnimation`: each
group of four values is read as a quaternion `q`, replaced by
`q.premultiply(parentRestWorldRotation).multiply(restRotationInverse)`, i.e.
`(parentRest.mul q).mul restInv`, and written back componentwise.  Quaternion
tracks always hold a multiple of four values; a leftover tail (whose
behaviour in the source reads past the array, producing NaNs) is returned
unchanged. -/
def retargetQuatValues (parentRest restInv : Quat) : List ℚ → List ℚ
  | x :: y :: z :: w :: tail =>
      let q := (parentRest.mul ⟨x, y, z, w⟩).mul restInv
      q.x :: q.y :: q.z :: q.w :: retargetQuatValues parentRest restInv tail
  | tail => tail

/-- The hips-position keyframe transform: the source branches on `i % 3`
(X, Y, Z components) but multiplies each by `hipsPositionScale` alike. -/
def retargetPositionValue (scale : ℚ) (v : ℚ) (i : ℕ) : ℚ :=
  if i % 3 = 0 then v * scale
  else if i % 3 = 1 then v * scale
  else v * scale

/-- Helper for `retargetPositionValues`, carrying the array index of
`track.values.map((v, i) => ...)`. -/
def retargetPositionValuesAux (scale : ℚ) : ℕ → List ℚ → List ℚ
  | _, [] => []
  | i, v :: vs => retargetPositionValue scale v i :: retargetPositionValuesAux scale (i + 1) vs

/-- The position-branch keyframe transform (`track.values.map` of the source). -/
def retargetPositionValues (scale : ℚ) (values : List ℚ) : List ℚ :=
  retargetPositionValuesAux scale 0 values

/-- Helper for `splitOnDot`: walks the character list, `acc` holding the
(reversed) characters of the current field. -/
def splitOnDotAux : List Char → List Char → List String
  | [], acc => [String.mk acc.reverse]
  | c :: cs, acc =>
      if c = '.' then String.mk acc.reverse :: splitOnDotAux cs []
      else splitOnDotAux cs (c :: acc)

/-- JavaScript `name.split('.')`, implemented by structural recursion on the
character list (agrees with the JS semantics: `"a.b" ↦ ["a","b"]`,
`"abc" ↦ ["abc"]`, `"" ↦ [""]`, `"a." ↦ ["a",""]`). -/
def splitOnDot (s : String) : List String := splitOnDotAux s.data []

/-- One step of the `clip.tracks.forEach` loop of `loadMixamoAnimation`.
The state is the shared `parentRestWorldRotation` temporary (initially the
identity, only overwritten in the quaternion branch when the source bone has
a parent) together with the output `tracks` accumulator. -/
def processTrack (asset : Asset) (vrm : VRMModel) (hipsPositionScale : ℚ)
    (st : Quat × List KTrack) (track : KTrack) : Quat × List KTrack :=
  let trackSplitted := splitOnDot track.name
  let mixamoBoneName := trackSplitted.headD ""
  let propertyName := trackSplitted.get? 1
  match List.lookup mixamoBoneName mixamoVRMRigMap with
  | none => st
  | some vrmBoneName =>
    match vrm.getNormalizedBoneNode vrmBoneName with
    | none => st
    | some vrmBoneNode =>
      if vrmBoneNode.name = "" then st
      else
        match asset.getObjectByName mixamoBoneName with
        | none => st
        | some mixamoBoneNode =>
          match track.kind with
          | .quaternion =>
            let restRotationInverse := mixamoBoneNode.worldQuat.conj
            let parentRestWorldRotation := mixamoBoneNode.parentWorldQuat.getD st.1
            (parentRestWorldRotation,
             st.2 ++ [⟨.quaternion, vrmBoneNode.name ++ ".quaternion", track.times,
                       retargetQuatValues parentRestWorldRotation restRotationInverse
                         track.values⟩])
          | .vector =>
            if propertyName = some "position" ∧ vrmBoneName = "hips" then
              (st.1,
               st.2 ++ [⟨.vector, vrmBoneNode.name ++ ".position", track.times,
                         retargetPositionValues hipsPositionScale track.values⟩])
            else st
          | .number => st

/-- The failure modes of `loadMixamoAnimation`: the two `throw new Error`
sites (`Animation clip not found in FBX file`, `Mixamo hips bone not found`). -/
inductive RetargetError where
  | clipNotFound
  | hipsNotFound
  deriving DecidableEq, Repr

instance : DecidableEq (Except RetargetError Clip) := fun a b =>
  match a, b with
  | .error e1, .error e2 => decidable_of_iff (e1 = e2) (by simp)
  | .ok c1, .ok c2 => decidable_of_iff (c1 = c2) (by simp)
  | .error _, .ok _ => isFalse (by simp)
  | .ok _, .error _ => isFalse (by simp)

/-- `loadMixamoAnimation` of `src/.../loadMixamoAnimation.ts`, with asset
loading already performed (the embedding starts at the loaded `asset`). -/
def loadMixamoAnimation (asset : Asset) (vrm : VRMModel) : Except RetargetError Clip :=
  match asset.animations.find? (fun c => c.name = "mixamo.com") with
  | none => .error .clipNotFound
  | some clip =>
    match asset.getObjectByName "mixamorigHips" with
    | none => .error .hipsNotFound
    | some mixamoHips =>
      let motionHipsHeight := mixamoHips.positionY
      let vrmHipsNode := vrm.getNormalizedBoneNode "hips"
      let vrmHipsY := match vrmHipsNode with
        | some n => n.worldY
        | none => 1
      let vrmHipsHeight := vrm.normalizedRestPoseHipsY.getD vrmHipsY
      let hipsPositionScale := vrmHipsHeight / motionHipsHeight
      let tracks := (clip.tracks.foldl (processTrack asset vrm hipsPositionScale)
        (Quat.identity, [])).2
      .ok ⟨"vrmAnimation", clip.duration, tracks⟩

/-! ### Expression / viseme mixing (`VRMRenderer.tsx`, expression effect) -/

/-- The `expressionMap` table of `VRMRenderer.tsx`: custom expression names
to VRM preset names. -/
def expressionMap : List (String × String) :=
  [("happy", "happy"),
   ("angry", "angry"),
   ("sad", "sad"),
   ("relaxed", "relaxed"),
   ("surprised", "surprised"),
   ("neutral", "neutral")]

/-- The `visemeMap` table of `VRMRenderer.tsx`: lip-sync viseme channels. -/
def visemeMap : List (String × String) :=
  [("aa", "aa"), ("ih", "ih"), ("ou", "ou"), ("ee", "ee"), ("oh", "oh")]

/-- `mouthOpeningExpressions`: expressions that significantly open the mouth. -/
def mouthOpeningExpressions : List String := ["happy", "surprised"]

/-- `expressionManager.setValue`: the expression manager as a map from
channel name to weight, updated pointwise. -/
def setValue (s : String → ℚ) (k : String) (v : ℚ) : String → ℚ :=
  fun c => if c = k then v else s c

/-- `expressionMap[expression] || 'neutral'`. -/
def mappedExpression (expression : String) : String :=
  (List.lookup expression expressionMap).getD "neutral"

/-- One evaluation of the expression/mouth effect of `VRMRenderer.tsx`
(lines 269-293): clamp `mouthOpen` to `[0,1]`, reset every preset expression
channel and every viseme channel to 0, set the mapped expression channel
(reduced 0.2 intensity for mouth-opening expressions, 1.0 otherwise, nothing
for `neutral`), then write the clamped mouth value into the `aa` viseme
channel last.  `s0` is the manager's prior channel state. -/
def mixExpression (s0 : String → ℚ) (expression : String) (mouthOpen : ℚ) :
    String → ℚ :=
  let mouthValue := min 1 (max 0 mouthOpen)
  let s1 := expressionMap.foldl (fun s p => setValue s p.2 0) s0
  let s2 := visemeMap.foldl (fun s p => setValue s p.2 0) s1
  let mapped := mappedExpression expression
  let s3 :=
    if mapped ≠ "neutral" then
      let isMouthOpening := mapped ∈ mouthOpeningExpressions
      let intensity : ℚ := if isMouthOpening then 0.2 else 1.0
      setValue s2 mapped intensity
    else s2
  setValue s3 "aa" mouthValue

/-- All channel names the mixer ever writes: the preset expression channels
followed by the viseme channels. -/
def knownChannels : List String :=
  expressionMap.map Prod.snd ++ visemeMap.map Prod.snd

/-! ### One-shot motion director (`VRMRenderer.tsx`, motion effect) -/

/-- Events driving the motion lifecycle of `VRMRenderer.tsx`: the `motionUrl`
prop changing to `url` (with `ok` telling whether `loadMixamoAnimation`
succeeds when the clip is not cached), and the animation mixer firing
`finished` for the current one-shot motion action reaching its natural end. -/
inductive DEvent where
  | trigger (url : String) (ok : Bool)
  | finish
  deriving DecidableEq, Repr

/-- The director state distilled from the refs of `VRMRenderer.tsx`:
`idle` is `idleActionRef` (the id of the looping idle action, if configured),
`motion` is `motionActionRef`, `currentMotionUrl` is `currentMotionUrlRef`,
`cache` the keys of `animationCacheRef`, `listeners` the `finished` listeners
still registered on the mixer (action id and the motion url that created
them), `playing` the ids of actions currently running on the mixer (an
action faded out by a crossfade stays enabled at weight 0, so it stays in
`playing`; `stop()` removes it), and `signals` the `onMotionComplete`
invocations so far, tagged with the url they were issued for. -/
structure DirectorState where
  nextId : ℕ
  idle : Option ℕ
  motion : Option ℕ
  currentMotionUrl : Option String
  cache : List String
  listeners : List (ℕ × String)
  playing : List ℕ
  signals : List String
  deriving DecidableEq, Repr

/-- One step of the director.

`trigger url ok` models the motion effect: it returns unchanged when `url`
is empty or equals `currentMotionUrlRef` (the `!motionUrl || motionUrl ===
currentMotionUrlRef.current` guard); otherwise it records the url, loads the
clip through the cache (`ok = false` models a failed load: the url ref is
cleared and `onMotionComplete` fires from the catch block), stops the
previous motion action (its `finished` listener is *not* removed), then
creates, resets and plays the new action and crossfades it in from the
currently rendered pose.

`finish` models the mixer firing `finished` for the current one-shot action
(only the current motion action can finish naturally: the idle action loops
and stopped actions never finish).  Every registered listener receives the
event; only the one whose action matches reacts: it unregisters itself,
clears the refs, then either crossfades the idle action back in (idle keeps
the outgoing action enabled while fading it out) or — with no idle — stops
the motion action and applies `applyRelaxedPose`, which is a no-op keeping
the default pose; finally it calls `onMotionComplete`. -/
def dstep (st : DirectorState) : DEvent → DirectorState
  | .trigger url ok =>
    if url = "" ∨ st.currentMotionUrl = some url then st
    else
      let st1 := { st with currentMotionUrl := some url }
      if url ∈ st1.cache ∨ ok then
        let st2 := if url ∈ st1.cache then st1 else { st1 with cache := st1.cache ++ [url] }
        let st3 :=
          match st2.motion with
          | some a => { st2 with playing := st2.playing.erase a, motion := none }
          | none => st2
        let b := st3.nextId
        { st3 with
            nextId := b + 1,
            motion := some b,
            playing := st3.playing ++ [b],
            listeners := st3.listeners ++ [(b, url)] }
      else
        { st1 with currentMotionUrl := none, signals := st1.signals ++ [url] }
  | .finish =>
    match st.motion with
    | none => st
    | some a =>
      match List.lookup a st.listeners with
      | none => st
      | some url =>
        let st1 := { st with
            listeners := st.listeners.filter (fun p => p.1 ≠ a),
            motion := none,
            currentMotionUrl := none }
        match st1.idle with
        | some i =>
          { st1 with
              playing := if i ∈ st1.playing then st1.playing else st1.playing ++ [i],
              signals := st1.signals ++ [url] }
        | none =>
          { st1 with
              playing := st1.playing.erase a,
              signals := st1.signals ++ [url] }

/-- Run the director over a list of events. -/
def drun (st : DirectorState) (evs : List DEvent) : DirectorState :=
  evs.foldl dstep st

/-- Initial director state with a configured, running idle action (id 0),
as set up by `loadVRM` when an idle animation url is provided. -/
def dInitIdle : DirectorState :=
  ⟨1, some 0, none, none, [], [], [0], []⟩

/-- Initial director state with no idle clip configured (`idleActionRef`
null), as when the idle animation fails to load. -/
def dInitNoIdle : DirectorState :=
  ⟨0, none, none, none, [], [], [], []⟩

/-! ### VTube Studio bridge: pending-request correlation (`VTubeStudioBridge`) -/

/-- Events of the request/response machinery of `VTubeStudioBridge`:
`send id` is `sendMessage` registering `id` in `pendingRequestsRef`,
`timeoutFire id` is the 10-second `setTimeout` callback for `id` firing, and
`response id` is `ws.onmessage` receiving a message whose `requestID` is
`id`. -/
inductive BEvent where
  | send (id : String)
  | timeoutFire (id : String)
  | response (id : String)
  deriving DecidableEq, Repr

/-- Bridge request-correlation state: `pending` is the key set of
`pendingRequestsRef`, `failed` records each rejection of a request promise
(the timeout path), `delivered` records each invocation of a stored resolve
callback (the response path). -/
structure BState where
  pending : List String
  failed : List String
  delivered : List String
  deriving DecidableEq, Repr

/-- One step of the bridge request machinery, from `sendMessage` (register,
then 10 s timeout: if the id is still pending, delete it and reject) and
`ws.onmessage` (look the id up; if present, delete it and invoke the
callback; otherwise the message is dropped). -/
def bstep (st : BState) : BEvent → BState
  | .send id => { st with pending := st.pending ++ [id] }
  | .timeoutFire id =>
    if id ∈ st.pending then
      { st with pending := st.pending.filter (fun r => r ≠ id),
                failed := st.failed ++ [id] }
    else st
  | .response id =>
    if id ∈ st.pending then
      { st with pending := st.pending.filter (fun r => r ≠ id),
                delivered := st.delivered ++ [id] }
    else st

/-- Run the bridge machinery over a list of events. -/
def brun (st : BState) (evs : List BEvent) : BState :=
  evs.foldl bstep st

/-! ### VTube Studio bridge: connection-time authentication (`ws.onopen`) -/

/-- The localStorage key for the authentication token, `vts_token_${port}`. -/
def tokenKey (port : ℕ) : String := "vts_token_" ++ toString port

/-- The authentication-related requests `ws.onopen` can send:
`authenticationRequest t` is an `AuthenticationRequest` carrying token `t`
(from `authenticate`), `authenticationTokenRequest` is the token-issuance
`AuthenticationTokenRequest` (from `requestToken`). -/
inductive VTSAction where
  | authenticationRequest (token : String)
  | authenticationTokenRequest
  deriving DecidableEq, Repr

/-- `localStorage.setItem`. -/
def storageSet (s : String → Option String) (k v : String) : String → Option String :=
  fun x => if x = k then some v else s x

/-- `localStorage.removeItem`. -/
def storageRemove (s : String → Option String) (k : String) : String → Option String :=
  fun x => if x = k then none else s x

/-- The `ws.onopen` handler of `VTubeStudioBridge` after the socket reaches
the Connected state.  `storage` is localStorage; `authOk t` is VTube
Studio's verdict on an `AuthenticationRequest` with token `t`; `issuance` is
the token granted by the `AuthenticationTokenRequest` (`none` when the
request fails or returns no token).  Returns the sequence of
authentication-related requests actually sent, the updated storage, and the
final `authSuccess` flag.  The source first tries the cached token, and only
on absence or rejection removes it, performs the issuance handshake
(`requestToken` persists a granted token via `setItem` before returning),
and authenticates with the new token. -/
def onOpen (storage : String → Option String) (port : ℕ)
    (authOk : String → Bool) (issuance : Option String) :
    List VTSAction × (String → Option String) × Bool :=
  match storage (tokenKey port) with
  | some t =>
    if authOk t then ([.authenticationRequest t], storage, true)
    else
      let storage1 := storageRemove storage (tokenKey port)
      match issuance with
      | some t2 =>
        ([.authenticationRequest t, .authenticationTokenRequest, .authenticationRequest t2],
         (storageSet storage1 (tokenKey port) t2, authOk t2))
      | none =>
        ([.authenticationRequest t, .authenticationTokenRequest], (storage1, false))
  | none =>
    let storage1 := storageRemove storage (tokenKey port)
    match issuance with
    | some t2 =>
      ([.authenticationTokenRequest, .authenticationRequest t2],
       (storageSet storage1 (tokenKey port) t2, authOk t2))
    | none =>
      ([.authenticationTokenRequest], (storage1, false))

/-! ### Concrete sample data used by witnesses and counterexamples -/

/-- A VRM model in which no humanoid bone (in particular not the hips) is
resolvable. -/
def vrmNoBones : VRMModel := ⟨[], none⟩

/-- An FBX asset holding the `mixamo.com` clip (with no tracks) and a
resolvable `mixamorigHips` node. -/
def assetHipsOnly : Asset :=
  ⟨[⟨"mixamo.com", 2, []⟩], [⟨"mixamorigHips", 1, Quat.identity, some Quat.identity⟩]⟩

/-! ### Theorems -/

/-- C10: when the motion trigger input equals the currently active motion
url (`currentMotionUrlRef`), the effect returns before doing anything: no
clip is loaded, the cache, the active motion action and the completion
signals are all unchanged. -/
theorem motion_retrigger_ignored (st : DirectorState) (url : String) (ok : Bool)
    (h : st.currentMotionUrl = some url) :
    dstep st (.trigger url ok) = st := by
  simp [dstep, h]

/-- Witness for `motion_retrigger_ignored` at a concrete director state. -/
theorem motion_retrigger_ignored_witness :
    dstep ⟨2, some 0, some 1, some "wave", ["wave"], [(1, "wave")], [0, 1], []⟩
        (.trigger "wave" true) =
      ⟨2, some 0, some 1, some "wave", ["wave"], [(1, "wave")], [0, 1], []⟩ :=
  motion_retrigger_ignored ⟨2, some 0, some 1, some "wave", ["wave"], [(1, "wave")], [0, 1], []⟩
    "wave" true rfl

/-- C4 (amended): when the current one-shot motion finishes naturally and no
idle action is configured, the matching `finished` listener unregisters
itself, clears the motion refs, fires exactly one completion signal, starts
no idle crossfade — and *stops* the motion action (removing it from the set
of running actions, so the rendered pose reverts to the default pose via the
no-op `applyRelaxedPose`) instead of holding the motion's final clamped
pose. -/
theorem motion_finish_no_idle (st : DirectorState) (a : ℕ) (url : String)
    (hidle : st.idle = none) (hmotion : st.motion = some a)
    (hlst : List.lookup a st.listeners = some url) :
    dstep st .finish =
      { st with
          listeners := st.listeners.filter (fun p => p.1 ≠ a),
          motion := none,
          currentMotionUrl := none,
          playing := st.playing.erase a,
          signals := st.signals ++ [url] } := by
  simp [dstep, hmotion, hlst, hidle]

/-- Witness for `motion_finish_no_idle` at a concrete director state. -/
theorem motion_finish_no_idle_witness :
    dstep ⟨1, none, some 0, some "m", ["m"], [(0, "m")], [0], []⟩ .finish =
      ⟨1, none, none, none, ["m"], [], [], ["m"]⟩ := by
  have h := motion_finish_no_idle ⟨1, none, some 0, some "m", ["m"], [(0, "m")], [0], []⟩
    0 "m" rfl rfl rfl
  simpa using h

/-- Counterexample to C4 as stated: trigger motion `"m"` with no idle clip
configured and let it complete naturally.  Afterwards the motion action is
gone from the set of running mixer actions (`playing = []`): the source's
`onFinished` handler calls `action.stop()` and the no-op
`applyRelaxedPose`, so the rendered pose reverts to the default pose rather
than holding the motion's final pose (only the skipped-idle-crossfade half
of the claim holds). -/
theorem motion_finish_no_idle_counterexample :
    (drun dInitNoIdle [.trigger "m" true, .finish]).motion = none ∧
    (drun dInitNoIdle [.trigger "m" true, .finish]).playing = [] ∧
    (drun dInitNoIdle [.trigger "m" true, .finish]).signals = ["m"] := by
  decide

/-- C8 (amended): `loadMixamoAnimation` fails with the clip-not-found error
exactly when the `mixamo.com` clip is missing from the asset, and with the
hips-not-found error exactly when the clip is present but `mixamorigHips`
cannot be resolved in the *source* hierarchy; in every other case it
produces a clip.  (An unresolvable hips bone in the *target* skeleton does
not fail: the hips height falls back to the rest-pose value or 1.) -/
theorem retarget_failure_modes (asset : Asset) (vrm : VRMModel) :
    (loadMixamoAnimation asset vrm = .error .clipNotFound ↔
      asset.animations.find? (fun c => c.name = "mixamo.com") = none) ∧
    (loadMixamoAnimation asset vrm = .error .hipsNotFound ↔
      (asset.animations.find? (fun c => c.name = "mixamo.com")).isSome ∧
        asset.getObjectByName "mixamorigHips" = none) ∧
    ((∃ c, loadMixamoAnimation asset vrm = .ok c) ↔
      (asset.animations.find? (fun c => c.name = "mixamo.com")).isSome ∧
        (asset.getObjectByName "mixamorigHips").isSome) := by
  unfold loadMixamoAnimation
  rcases hfind : asset.animations.find? (fun c => c.name = "mixamo.com") with _ | clip <;>
    rcases hhips : asset.getObjectByName "mixamorigHips" with _ | hips <;>
      simp [hfind, hhips]

/-- Witness for `retarget_failure_modes`: a clipless asset fails with the
clip-not-found error. -/
theorem retarget_failure_modes_witness :
    loadMixamoAnimation ⟨[], []⟩ vrmNoBones = .error .clipNotFound :=
  (retarget_failure_modes ⟨[], []⟩ vrmNoBones).1.mpr rfl

/-- Counterexample to C8 as stated: the hips bone is unresolvable in the
target skeleton (`vrmNoBones`), yet retargeting does not fail with the
missing-root-bone error — it succeeds, silently falling back to a target
hips height of 1. -/
theorem retarget_failure_modes_counterexample :
    vrmNoBones.getNormalizedBoneNode "hips" = none ∧
    loadMixamoAnimation assetHipsOnly vrmNoBones = .ok ⟨"vrmAnimation", 2, []⟩ := by
  decide

/-- C9: the retargeted clip keeps the source clip's duration, and a track
whose source bone is absent from `mixamoVRMRigMap` contributes nothing to
the output (the `forEach` body returns before copying it). -/
theorem retarget_duration_and_dropped (asset : Asset) (vrm : VRMModel) :
    (∀ clip c, asset.animations.find? (fun cl => cl.name = "mixamo.com") = some clip →
      loadMixamoAnimation asset vrm = .ok c → c.duration = clip.duration) ∧
    (∀ scale st track,
      List.lookup ((splitOnDot track.name).headD "") mixamoVRMRigMap = none →
      processTrack asset vrm scale st track = st) := by
  constructor
  · intro clip c hfind hok
    unfold loadMixamoAnimation at hok
    rw [hfind] at hok
    rcases hhips : asset.getObjectByName "mixamorigHips" with _ | hips
    · rw [hhips] at hok
      simp at hok
    · rw [hhips] at hok
      simp only [Except.ok.injEq] at hok
      rw [← hok]
  · intro scale st track h
    dsimp only [processTrack]
    rw [h]

/-- Witness for `retarget_duration_and_dropped`: the concrete sample asset
keeps its duration 2, and a `mixamorigFoo` (unmapped) rotation track is
dropped. -/
theorem retarget_duration_and_dropped_witness :
    (Clip.mk "vrmAnimation" 2 []).duration = (Clip.mk "mixamo.com" 2 []).duration ∧
    processTrack assetHipsOnly vrmNoBones 1 (Quat.identity, [])
        ⟨.quaternion, "mixamorigFoo.quaternion", [0], [0, 0, 0, 1]⟩ =
      (Quat.identity, []) := by
  constructor
  · exact (retarget_duration_and_dropped assetHipsOnly vrmNoBones).1
      ⟨"mixamo.com", 2, []⟩ ⟨"vrmAnimation", 2, []⟩ rfl (by decide)
  · exact (retarget_duration_and_dropped assetHipsOnly vrmNoBones).2
      1 (Quat.identity, []) ⟨.quaternion, "mixamorigFoo.quaternion", [0], [0, 0, 0, 1]⟩
      (by decide)

/-- An FBX asset whose `mixamorigHips` node sits at rest height `0.9` and
whose clip carries one hips position track with all components `0.1`. -/
def assetHipsPos : Asset :=
  ⟨[⟨"mixamo.com", 1, [⟨.vector, "mixamorigHips.position", [0], [1/10, 1/10, 1/10]⟩]⟩],
   [⟨"mixamorigHips", 9/10, Quat.identity, some Quat.identity⟩]⟩

/-- A VRM model whose hips rest height is `1.2`. -/
def vrmHips12 : VRMModel := ⟨[("hips", ⟨"HipsNode", 12/10⟩)], some (12/10)⟩

/-- Every index-branch of the source's position map multiplies by the scale. -/
theorem retargetPositionValuesAux_eq_map (scale : ℚ) (i : ℕ) (values : List ℚ) :
    retargetPositionValuesAux scale i values = values.map (fun v => v * scale) := by
  induction values generalizing i with
  | nil => rfl
  | cons v vs ih =>
    simp only [retargetPositionValuesAux, retargetPositionValue, List.map]
    rw [ih]
    split_ifs <;> rfl

/-- The position-branch transform multiplies every component by the scale. -/
theorem retargetPositionValues_eq_map (scale : ℚ) (values : List ℚ) :
    retargetPositionValues scale values = values.map (fun v => v * scale) :=
  retargetPositionValuesAux_eq_map scale 0 values

/-- C2: the hips position track is retargeted by multiplying every component
of every keyframe by `hipsPositionScale = vrmHipsHeight / motionHipsHeight`;
a position track of any mapped bone other than the hips is dropped; and in
the concrete 0.9 → 1.2 scenario a 0.1-unit hip translation becomes
`2/15 = 0.1333…` (ratio `1.2/0.9 = 4/3`). -/
theorem hips_position_scaling :
    (∀ (scale : ℚ) (values : List ℚ),
      retargetPositionValues scale values = values.map (fun v => v * scale)) ∧
    (∀ (asset : Asset) (vrm : VRMModel) (scale : ℚ) (st : Quat × List KTrack)
       (track : KTrack) (vrmBoneName : String),
      List.lookup ((splitOnDot track.name).headD "") mixamoVRMRigMap = some vrmBoneName →
      vrmBoneName ≠ "hips" →
      track.kind = .vector →
      processTrack asset vrm scale st track = st) ∧
    loadMixamoAnimation assetHipsPos vrmHips12 =
      .ok ⟨"vrmAnimation", 1, [⟨.vector, "HipsNode.position", [0], [2/15, 2/15, 2/15]⟩]⟩ := by
  refine ⟨?_, ?_, ?_⟩
  · intro scale values
    exact retargetPositionValuesAux_eq_map scale 0 values
  · intro asset vrm scale st track vrmBoneName h1 h2 hkind
    dsimp only [processTrack]
    rw [h1, hkind]
    dsimp only
    split
    · rfl
    · split
      · rfl
      · split
        · rfl
        · simp [h2]
  · have hstep : loadMixamoAnimation assetHipsPos vrmHips12 =
        .ok ⟨"vrmAnimation", 1, [⟨.vector, "HipsNode.position", [0],
          retargetPositionValues ((12/10 : ℚ) / (9/10)) [1/10, 1/10, 1/10]⟩]⟩ := rfl
    rw [hstep, retargetPositionValues_eq_map]
    norm_num [List.map]

/-- Witness for `hips_position_scaling`: the map form at the scenario scale
`4/3`, and a non-hips position track being dropped. -/
theorem hips_position_scaling_witness :
    retargetPositionValues (4/3) [1/10, 1/10, 1/10] = [2/15, 2/15, 2/15] ∧
    processTrack assetHipsPos vrmHips12 (4/3) (Quat.identity, [])
        ⟨.vector, "mixamorigLeftArm.position", [0], [1, 2, 3]⟩ = (Quat.identity, []) := by
  constructor
  · rw [hips_position_scaling.1 (4/3) [1/10, 1/10, 1/10]]
    norm_num [List.map]

  · exact hips_position_scaling.2.1 assetHipsPos vrmHips12 (4/3) (Quat.identity, [])
      ⟨.vector, "mixamorigLeftArm.position", [0], [1, 2, 3]⟩ "leftUpperArm"
      (by decide) (by decide) rfl

/-- The flat `[x, y, z, w, x, y, z, w, …]` layout of a
`QuaternionKeyframeTrack` value array holding the given keyframe quaternions. -/
def flattenQuads : List Quat → List ℚ
  | [] => []
  | q :: qs => q.x :: q.y :: q.z :: q.w :: flattenQuads qs

/-- The rotation-branch keyframe transform corrects each keyframe quaternion
independently. -/
theorem retargetQuatValues_flatten (p r : Quat) (qs : List Quat) :
    retargetQuatValues p r (flattenQuads qs) =
      flattenQuads (qs.map (fun q => (p.mul q).mul r)) := by
  induction qs with
  | nil => rfl
  | cons q qs ih =>
    simp only [flattenQuads, retargetQuatValues, List.map]
    rw [ih]

/-- For a unit quaternion the three.js `invert` (conjugation) agrees with
the mathematical inverse. -/
theorem Quat.inv_eq_conj (q : Quat) (h : q.normSq = 1) : q.inv = q.conj := by
  simp [Quat.inv, Quat.conj, h]

/-- An FBX asset holding one rotation track for the hips, whose rest-pose
world rotation is the unit quaternion `(3/5, 0, 0, 4/5)` and whose parent's
rest-pose world rotation is the identity. -/
def assetRot : Asset :=
  ⟨[⟨"mixamo.com", 1, [⟨.quaternion, "mixamorigHips.quaternion", [0], [0, 0, 0, 1]⟩]⟩],
   [⟨"mixamorigHips", 1, ⟨3/5, 0, 0, 4/5⟩, some Quat.identity⟩]⟩

/-- A VRM model resolving only the hips bone. -/
def vrmHipsOnly : VRMModel := ⟨[("hips", ⟨"HipsNode", 1⟩)], some 1⟩

/-- C1: for a rotation track of a mapped source bone (resolvable in both
hierarchies, with a parent and a unit rest-pose world rotation, as world
rotations are), every keyframe quaternion `q` is replaced by
`parentRestWorldRotation ⊗ q ⊗ inverse(restWorldRotation)`, where both rest
rotations are the source bone's rest-pose data, and the track is emitted
under the target node's `…​.quaternion` name. -/
theorem rotation_retargeting (asset : Asset) (vrm : VRMModel) (scale : ℚ)
    (temp : Quat) (acc : List KTrack) (track : KTrack)
    (vrmBoneName : String) (vrmBoneNode : VRMNode) (srcNode : SourceNode)
    (p : Quat) (qs : List Quat)
    (h1 : List.lookup ((splitOnDot track.name).headD "") mixamoVRMRigMap = some vrmBoneName)
    (h2 : vrm.getNormalizedBoneNode vrmBoneName = some vrmBoneNode)
    (h3 : vrmBoneNode.name ≠ "")
    (h4 : asset.getObjectByName ((splitOnDot track.name).headD "") = some srcNode)
    (h5 : track.kind = .quaternion)
    (h6 : srcNode.parentWorldQuat = some p)
    (h7 : srcNode.worldQuat.normSq = 1)
    (h8 : track.values = flattenQuads qs) :
    processTrack asset vrm scale (temp, acc) track =
      (p, acc ++ [⟨.quaternion, vrmBoneNode.name ++ ".quaternion", track.times,
        flattenQuads (qs.map (fun q => (p.mul q).mul srcNode.worldQuat.inv))⟩]) := by
  dsimp only [processTrack]
  rw [h1]
  dsimp only
  rw [h2]
  dsimp only
  rw [if_neg h3, h4]
  dsimp only
  rw [h5]
  dsimp only
  rw [h6]
  dsimp only [Option.getD]
  rw [h8, retargetQuatValues_flatten, Quat.inv_eq_conj srcNode.worldQuat h7]

/-- Witness for `rotation_retargeting`: retargeting the identity keyframe of
the sample hips rotation track yields the inverse of the rest rotation. -/
theorem rotation_retargeting_witness :
    processTrack assetRot vrmHipsOnly 1 (Quat.identity, [])
        ⟨.quaternion, "mixamorigHips.quaternion", [0], [0, 0, 0, 1]⟩ =
      (Quat.identity, [⟨.quaternion, "HipsNode.quaternion", [0],
        [-(3/5), 0, 0, 4/5]⟩]) := by
  have h := rotation_retargeting assetRot vrmHipsOnly 1 Quat.identity []
    ⟨.quaternion, "mixamorigHips.quaternion", [0], [0, 0, 0, 1]⟩
    "hips" ⟨"HipsNode", 1⟩ ⟨"mixamorigHips", 1, ⟨3/5, 0, 0, 4/5⟩, some Quat.identity⟩
    Quat.identity [⟨0, 0, 0, 1⟩]
    (by decide) rfl (by decide) rfl rfl rfl (by norm_num [Quat.normSq]) rfl
  rw [h]
  norm_num [flattenQuads, List.map, Quat.mul, Quat.inv, Quat.normSq, Quat.identity]
  decide

/-- The mapped expression is always one of the six preset names (unknown
ids fall back to `neutral`). -/
theorem mappedExpression_mem (expression : String) :
    mappedExpression expression ∈
      ["happy", "angry", "sad", "relaxed", "surprised", "neutral"] := by
  unfold mappedExpression
  simp only [expressionMap, List.lookup]
  repeat' split
  all_goals simp

/-- C3: one evaluation of the expression/mouth effect writes the clamped
`mouthOpen` into the single `aa` viseme channel last (so it always holds the
clamp of the input), sets the mapped expression's channel to `0.2` when it
is one of the mouth-opening expressions (happy, surprised) and to `1.0`
otherwise, sets no expression channel when the id maps to `neutral`
(in particular for unknown ids), and leaves every other known channel at 0. -/
theorem expression_mixer_eval (s0 : String → ℚ) (expression : String) (mouthOpen : ℚ) :
    mixExpression s0 expression mouthOpen "aa" = min 1 (max 0 mouthOpen) ∧
    (mappedExpression expression ≠ "neutral" →
      mixExpression s0 expression mouthOpen (mappedExpression expression) =
        (if mappedExpression expression ∈ mouthOpeningExpressions
          then (0.2 : ℚ) else 1.0)) ∧
    (∀ c, c ∈ knownChannels → c ≠ "aa" →
      (c ≠ mappedExpression expression ∨ mappedExpression expression = "neutral") →
      mixExpression s0 expression mouthOpen c = 0) := by
  have hm := mappedExpression_mem expression
  simp only [List.mem_cons, List.not_mem_nil, or_false] at hm
  refine ⟨?_, ?_, ?_⟩
  · simp [mixExpression, setValue]
  · intro hne
    rcases hm with h | h | h | h | h | h <;>
      simp [mixExpression, setValue, mouthOpeningExpressions, expressionMap,
        visemeMap, List.foldl, h] at hne ⊢
  · intro c hc hcaa hor
    simp only [knownChannels, expressionMap, visemeMap, List.map, List.mem_cons,
      List.not_mem_nil, or_false, List.mem_append] at hc
    rcases hm with h | h | h | h | h | h <;>
      rcases hc with (rfl | rfl | rfl | rfl | rfl | rfl) | (rfl | rfl | rfl | rfl | rfl) <;>
      simp_all [mixExpression, setValue, mouthOpeningExpressions, expressionMap,
        visemeMap, List.foldl]

/-- Witness for `expression_mixer_eval`: expression `happy` with
`mouthOpen = 0.5` yields happy weight `0.2`, `aa` viseme weight `0.5`, and
(sampled at the `sad` channel) every other channel 0. -/
theorem expression_mixer_eval_witness :
    mixExpression (fun _ => 7) "happy" (1/2) "aa" = 1/2 ∧
    mixExpression (fun _ => 7) "happy" (1/2) "happy" = 0.2 ∧
    mixExpression (fun _ => 7) "happy" (1/2) "sad" = 0 := by
  have h := expression_mixer_eval (fun _ => 7) "happy" (1/2)
  have hmap : mappedExpression "happy" = "happy" := by decide
  refine ⟨?_, ?_, ?_⟩
  · rw [h.1]; norm_num
  · have h2 := h.2.1 (by rw [hmap]; decide)
    rw [hmap] at h2
    rw [h2]
    norm_num [mouthOpeningExpressions]
  · exact h.2.2 "sad" (by decide) (by decide) (by rw [hmap]; exact Or.inl (by decide))

/-- C5: triggering motion `a` and then a different motion `b` before `a`
completes leaves exactly one active motion action — `b`'s (id 2; `a`'s
action 1 is stopped and no longer among the running actions) — with the
crossfade starting from the currently playing actions (the running set is
never empty, so no default-pose reset occurs), and over the whole run
exactly one completion signal fires, for `b`, when `b` finishes naturally
(`a`'s stale `finished` listener never matches another action). -/
theorem motion_preemption (a b : String) (ha : a ≠ "") (hb : b ≠ "") (hab : a ≠ b) :
    (drun dInitIdle [.trigger a true]).motion = some 1 ∧
    (drun dInitIdle [.trigger a true]).playing = [0, 1] ∧
    (drun dInitIdle [.trigger a true, .trigger b true]).motion = some 2 ∧
    (drun dInitIdle [.trigger a true, .trigger b true]).playing = [0, 2] ∧
    (drun dInitIdle [.trigger a true, .trigger b true]).signals = [] ∧
    (drun dInitIdle [.trigger a true, .trigger b true, .finish]).signals = [b] ∧
    (drun dInitIdle [.trigger a true, .trigger b true, .finish]).motion = none := by
  have h1 : dstep dInitIdle (.trigger a true) =
      ⟨2, some 0, some 1, some a, [a], [(1, a)], [0, 1], []⟩ := by
    simp [dstep, dInitIdle, ha]
  have h2 : dstep ⟨2, some 0, some 1, some a, [a], [(1, a)], [0, 1], []⟩
        (.trigger b true) =
      ⟨3, some 0, some 2, some b, [a, b], [(1, a), (2, b)], [0, 2], []⟩ := by
    simp [dstep, hb, hab, Ne.symm hab, List.erase]
  have h3 : dstep ⟨3, some 0, some 2, some b, [a, b], [(1, a), (2, b)], [0, 2], []⟩
        .finish =
      ⟨3, some 0, none, none, [a, b], [(1, a)], [0, 2], [b]⟩ := by
    simp [dstep, List.lookup, List.filter]
  simp [drun, List.foldl, h1, h2, h3]

/-- Witness for `motion_preemption` at the concrete motions `"A"`, `"B"`. -/
theorem motion_preemption_witness :
    (drun dInitIdle [.trigger "A" true, .trigger "B" true]).motion = some 2 ∧
    (drun dInitIdle [.trigger "A" true, .trigger "B" true]).playing = [0, 2] ∧
    (drun dInitIdle [.trigger "A" true, .trigger "B" true, .finish]).signals = ["B"] := by
  have h := motion_preemption "A" "B" (by decide) (by decide) (by decide)
  exact ⟨h.2.2.1, h.2.2.2.1, h.2.2.2.2.2.1⟩

/-- Once a request id is out of the pending map and no new `send`
re-registers it, no callback for it is invoked and no further failure
resolution happens, over any later event sequence. -/
theorem brun_no_send_invariant (st : BState) (id : String) (evs : List BEvent)
    (hpend : id ∉ st.pending) (hns : ∀ e ∈ evs, e ≠ .send id) :
    id ∉ (brun st evs).pending ∧
    (brun st evs).delivered.count id = st.delivered.count id ∧
    (brun st evs).failed.count id = st.failed.count id := by
  induction evs generalizing st with
  | nil => exact ⟨hpend, rfl, rfl⟩
  | cons e evs ih =>
    have hns' : ∀ x ∈ evs, x ≠ .send id := fun x hx => hns x (List.mem_cons_of_mem e hx)
    have he : e ≠ .send id := hns e (List.mem_cons_self e evs)
    have hstep : id ∉ (bstep st e).pending ∧
        (bstep st e).delivered.count id = st.delivered.count id ∧
        (bstep st e).failed.count id = st.failed.count id := by
      rcases e with i | i | i
      · have hi : i ≠ id := fun h => he (by rw [h])
        have hb : bstep st (.send i) = { st with pending := st.pending ++ [i] } := rfl
        rw [hb]
        refine ⟨?_, rfl, rfl⟩
        simp [hpend, Ne.symm hi]
      · by_cases hmem : i ∈ st.pending
        · have hi : i ≠ id := fun h => hpend (h ▸ hmem)
          have hb : bstep st (.timeoutFire i) =
              { st with pending := st.pending.filter (fun r => r ≠ i),
                        failed := st.failed ++ [i] } := by
            simp [bstep, hmem]
          rw [hb]
          refine ⟨?_, rfl, ?_⟩
          · exact fun hmf => hpend (List.mem_of_mem_filter hmf)
          · simp [List.count_append, List.count_cons, List.count_nil, Ne.symm hi]
        · have hb : bstep st (.timeoutFire i) = st := by simp [bstep, hmem]
          rw [hb]
          exact ⟨hpend, rfl, rfl⟩
      · by_cases hmem : i ∈ st.pending
        · have hi : i ≠ id := fun h => hpend (h ▸ hmem)
          have hb : bstep st (.response i) =
              { st with pending := st.pending.filter (fun r => r ≠ i),
                        delivered := st.delivered ++ [i] } := by
            simp [bstep, hmem]
          rw [hb]
          refine ⟨?_, ?_, rfl⟩
          · exact fun hmf => hpend (List.mem_of_mem_filter hmf)
          · simp [List.count_append, List.count_cons, List.count_nil, Ne.symm hi]
        · have hb : bstep st (.response i) = st := by simp [bstep, hmem]
          rw [hb]
          exact ⟨hpend, rfl, rfl⟩
    have htail := ih (bstep st e) hstep.1 hns'
    exact ⟨htail.1, htail.2.1.trans hstep.2.1, htail.2.2.trans hstep.2.2⟩

/-- C6: when the 10-second timeout fires for a request id that is still
pending (no matching response arrived), the request is rejected exactly once
(one failure resolution is appended), it is removed from the pending map,
and — as long as no new request reuses the id — no callback for it is ever
invoked and no further failure resolution occurs, even if a response with
its correlation id arrives later. -/
theorem bridge_timeout_resolution (st : BState) (id : String) (evs : List BEvent)
    (hpend : id ∈ st.pending) (hns : ∀ e ∈ evs, e ≠ .send id) :
    (bstep st (.timeoutFire id)).failed = st.failed ++ [id] ∧
    id ∉ (bstep st (.timeoutFire id)).pending ∧
    (brun (bstep st (.timeoutFire id)) evs).delivered.count id =
      (bstep st (.timeoutFire id)).delivered.count id ∧
    (brun (bstep st (.timeoutFire id)) evs).failed.count id =
      (bstep st (.timeoutFire id)).failed.count id := by
  have h1 : (bstep st (.timeoutFire id)).failed = st.failed ++ [id] := by
    simp [bstep, hpend]
  have h2 : id ∉ (bstep st (.timeoutFire id)).pending := by
    have hb : bstep st (.timeoutFire id) =
        { st with pending := st.pending.filter (fun r => r ≠ id),
                  failed := st.failed ++ [id] } := by
      simp [bstep, hpend]
    rw [hb]
    intro hmf
    have hsplit := List.mem_filter.mp hmf
    simp at hsplit
  have h3 := brun_no_send_invariant (bstep st (.timeoutFire id)) id evs h2 hns
  exact ⟨h1, h2, h3.2.1, h3.2.2⟩

/-- Witness for `bridge_timeout_resolution`: request `"r1"` times out and a
late response for it invokes no callback. -/
theorem bridge_timeout_resolution_witness :
    (bstep ⟨["r1"], [], []⟩ (.timeoutFire "r1")).failed = [] ++ ["r1"] ∧
    "r1" ∉ (bstep ⟨["r1"], [], []⟩ (.timeoutFire "r1")).pending ∧
    (brun (bstep ⟨["r1"], [], []⟩ (.timeoutFire "r1")) [.response "r1"]).delivered.count "r1"
      = 0 := by
  have h := bridge_timeout_resolution ⟨["r1"], [], []⟩ "r1" [.response "r1"]
    (by decide) (by decide)
  exact ⟨h.1, h.2.1, (h.2.2.1).trans (by decide)⟩

/-- C7: on reaching Connected, the bridge first attempts authentication with
the persisted token for this endpoint when one exists (it is the first
request sent); the token-issuance handshake is performed exactly when no
token is persisted or the persisted token is rejected; and when the
handshake grants a token, it is persisted under the endpoint's storage
key. -/
theorem bridge_auth_order (storage : String → Option String) (port : ℕ)
    (authOk : String → Bool) (issuance : Option String) :
    (∀ t, storage (tokenKey port) = some t →
      (onOpen storage port authOk issuance).1.head? = some (.authenticationRequest t)) ∧
    (VTSAction.authenticationTokenRequest ∈ (onOpen storage port authOk issuance).1 ↔
      (storage (tokenKey port) = none ∨
        ∃ t, storage (tokenKey port) = some t ∧ authOk t = false)) ∧
    (∀ t2, issuance = some t2 →
      (storage (tokenKey port) = none ∨
        ∃ t, storage (tokenKey port) = some t ∧ authOk t = false) →
      (onOpen storage port authOk issuance).2.1 (tokenKey port) = some t2) := by
  rcases hst : storage (tokenKey port) with _ | t
  · rcases issuance with _ | t2 <;>
      simp [onOpen, hst, storageSet, storageRemove]
  · by_cases hA : authOk t
    · rcases issuance with _ | t2 <;>
        simp [onOpen, hst, hA, storageSet, storageRemove]
    · rcases issuance with _ | t2 <;>
        simp [onOpen, hst, hA, storageSet, storageRemove]

/-- Witness for `bridge_auth_order`: a persisted but rejected token is tried
first, then the issuance handshake runs and the fresh token is persisted. -/
theorem bridge_auth_order_witness :
    (onOpen (fun k => if k = tokenKey 8001 then some "old" else none) 8001
        (fun t => t == "fresh") (some "fresh")).1.head? =
      some (.authenticationRequest "old") ∧
    (onOpen (fun k => if k = tokenKey 8001 then some "old" else none) 8001
        (fun t => t == "fresh") (some "fresh")).2.1 (tokenKey 8001) = some "fresh" := by
  have h := bridge_auth_order (fun k => if k = tokenKey 8001 then some "old" else none)
    8001 (fun t => t == "fresh") (some "fresh")
  refine ⟨h.1 "old" (by simp), h.2.2 "fresh" rfl (Or.inr ⟨"old", by simp, by decide⟩)⟩

end AvatarCore
